import Mathlib

/-!
Verification development for the `sar_facts` repository
(`src/library/sar_facts.py` and `src/library/sar_info.py`).

Both modules collect SAR (system activity report) data: they build a `sar`
command line, run it over per-date binary log files, and parse its textual
output into a list of records (dictionaries from column name to string value).

Shallow embedding conventions:
- A Python dict (a record) is a `List (String × String)` with insertion order
  preserved; assignment to an existing key updates the value in place
  (`dictInsert`), matching CPython dict semantics.
- Python `str.split()` is `splitWs` (split on whitespace runs, drop empties);
  `str.splitlines()` is `splitLines` (split on newline; the parsers tokenize
  each line afterwards, so remaining terminator differences are inert).
- Python exceptions that can escape the modelled code are `Except.error`
  values (`"ValueError"`, `"IndexError"`, `"TypeError"`); `module.fail_json`
  is also an `Except.error` carrying the message.
- Calendar dates handled by `datetime.strptime` / `timedelta` /`strftime`
  (day-granular, a pure calendar computation) are embedded as `Int` day
  ordinals; `(end - start).days` becomes `e - s`, and formatting a date back
  to a string is the identity on ordinals, which is faithful because
  `strftime` of a day-granular datetime is injective.
-/

/-- A record ("data_entry" in the sources): an insertion-ordered dictionary
from field name to string value. -/
abbrev SarEntry := List (String × String)

/-- CPython dict assignment `d[k] = v`: if `k` is present, its value is
updated in place; otherwise the pair is appended at the end. -/
def dictInsert (k v : String) : SarEntry → SarEntry
  | [] => [(k, v)]
  | (k0, v0) :: rest => if k0 = k then (k0, v) :: rest else (k0, v0) :: dictInsert k v rest

/-- Dictionary lookup `d[k]` (first, hence unique, occurrence of `k`). -/
def entryLookup (k : String) : SarEntry → Option String
  | [] => none
  | (k0, v0) :: rest => if k0 = k then some v0 else entryLookup k rest

/-- Whitespace tokenizer worker: `acc` holds the characters of the token
being read, in reverse. -/
def wsTokens : List Char → List Char → List String
  | acc, [] => if acc.isEmpty then [] else [String.mk acc.reverse]
  | acc, c :: cs =>
    if c.isWhitespace then
      (if acc.isEmpty then [] else [String.mk acc.reverse]) ++ wsTokens [] cs
    else wsTokens (c :: acc) cs

/-- Python `str.split()` with no argument: split on runs of whitespace and
drop empty tokens. -/
def splitWs (s : String) : List String :=
  wsTokens [] s.data

/-- Separator-character splitter worker (keeps empty fields, as Python
`str.split(sep)` does). -/
def sepFields (sep : Char) : List Char → List Char → List String
  | acc, [] => [String.mk acc.reverse]
  | acc, c :: cs =>
    if c = sep then String.mk acc.reverse :: sepFields sep [] cs
    else sepFields sep (c :: acc) cs

/-- Python `str.splitlines()` (the parsers re-tokenize each line, so the
treatment of `\r` and trailing terminators cannot be observed). -/
def splitLines (s : String) : List String :=
  sepFields '\n' [] s.data

/-- Python list indexing `xs[i]`, raising `IndexError` when out of range. -/
def pyIndex (xs : List String) (i : Nat) : Except String String :=
  match xs.get? i with
  | some v => .ok v
  | none => .error "IndexError"

/-- A regex word character (`\w` over the ASCII inputs at hand). -/
def isWordChar (c : Char) : Bool :=
  c.isAlphanum || c = '_'

/-- Case-insensitive match of the pattern word `w` against a text prefix;
returns the remaining text on success. -/
def matchWordAt : List Char → List Char → Option (List Char)
  | [], rest => some rest
  | _ :: _, [] => none
  | p :: ps, t :: ts => if t.toLower = p.toLower then matchWordAt ps ts else none

/-- The `\b` boundary after a match: end of text or a non-word character. -/
def afterBoundary : List Char → Bool
  | [] => true
  | c :: _ => !(isWordChar c)

/-- Scan for a whole-word, case-insensitive occurrence of `w`; `atBoundary`
records whether the previous character was a word boundary (`\b`), which for
an all-word-character pattern is the `\b` to the left of a match. -/
def hasWordFrom (w : List Char) : Bool → List Char → Bool
  | _, [] => false
  | atBoundary, t :: ts =>
    (atBoundary &&
      (match matchWordAt w (t :: ts) with
       | some rest => afterBoundary rest
       | none => false))
    || hasWordFrom w (!(isWordChar t)) ts

/-- Model of `re.search(r'\b<w>\b', line, re.IGNORECASE) is not None` for a
pattern word `w` made of word characters. -/
def containsWordCI (w line : String) : Bool :=
  hasWordFrom w.data true line.data

/-- sar_facts.py line 141: `re.search(r'\b(Linux|restart)\b', line, flags=re.IGNORECASE)`:
the noise filter for kernel banner and restart-marker lines. -/
def isNoiseLine (line : String) : Bool :=
  containsWordCI "Linux" line || containsWordCI "restart" line

/-- sar_facts.py lines 136-137, `is_valid_time`:
`re.match(r'^\d{1,2}:\d{2}:\d{2}$', token)` — 1-2 digit hour, 2-digit
minute, 2-digit second. -/
def is_valid_time (t : String) : Bool :=
  match t.data with
  | [a, ':', b, c, ':', d, e] =>
    a.isDigit && b.isDigit && c.isDigit && d.isDigit && e.isDigit
  | [a, a2, ':', b, c, ':', d, e] =>
    a.isDigit && a2.isDigit && b.isDigit && c.isDigit && d.isDigit && e.isDigit
  | _ => false

/-- Digit string to number (the digits have been checked by the caller). -/
def digitsToNat (s : String) : Nat :=
  s.data.foldl (fun a c => a * 10 + (c.toNat - Char.toNat '0')) 0

/-- Two-digit zero padding, as `strftime("%H")` / `"%M"` / `"%S"` produce. -/
def pad2 (n : Nat) : String :=
  if n < 10 then "0" ++ toString n else toString n

/-- sar_facts.py lines 125-126, `convert_to_24h`:
`datetime.strptime(f"{time_str} {am_pm}", "%I:%M:%S %p").strftime("%H:%M:%S")`.
`%I` accepts a 1-2 digit hour in 1..12, `%M` minutes 0..59 and `%S` seconds
0..59 (the `_strptime` regex would admit the leap seconds 60-61, but the
`datetime` constructor rejects them, so the net effect is `ValueError`);
`%p` matches AM/PM case-insensitively; an unmatchable field raises
`ValueError`, modelled as `Except.error`. -/
def convert_to_24h (time_str am_pm : String) : Except String String :=
  match sepFields ':' [] time_str.data with
  | [hs, ms, ss] =>
    if hs ≠ "" ∧ hs.data.length ≤ 2 ∧ hs.data.all Char.isDigit ∧
       ms ≠ "" ∧ ms.data.length ≤ 2 ∧ ms.data.all Char.isDigit ∧
       ss ≠ "" ∧ ss.data.length ≤ 2 ∧ ss.data.all Char.isDigit then
      let h := digitsToNat hs
      let m := digitsToNat ms
      let s := digitsToNat ss
      let ap := String.mk (am_pm.data.map Char.toUpper)
      if 1 ≤ h ∧ h ≤ 12 ∧ m ≤ 59 ∧ s ≤ 59 ∧ (ap = "AM" ∨ ap = "PM") then
        let h24 := if ap = "PM" then (if h = 12 then 12 else h + 12)
                   else (if h = 12 then 0 else h)
        .ok (pad2 h24 ++ ":" ++ pad2 m ++ ":" ++ pad2 s)
      else .error "ValueError"
    else .error "ValueError"
  | _ => .error "ValueError"

/-!
## `src/library/sar_info.py` (marker-token dialect)
-/

namespace SarInfo

/-- sar_info.py lines 185-201: the `elif` chain that recognizes a header line
for the requested category by its marker tokens. At most one branch of the
chain can fire since `sar_type` equals at most one category name. -/
def isMarker (sar_type : String) (parts : List String) : Bool :=
  (sar_type = "cpu" && (parts.contains "%user" || parts.contains "%usr"))
  || (sar_type = "memory" && (parts.contains "kbmemfree" || parts.contains "kbmemused"))
  || (sar_type = "swap" && (parts.contains "kbswpfree" || parts.contains "kbswpused"))
  || (sar_type = "network" && (parts.contains "IFACE" || parts.contains "rxpck/s"))
  || (sar_type = "disk" && (parts.contains "DEV" || parts.contains "tps"))
  || (sar_type = "load" && (parts.contains "runq-sz" || parts.contains "plist-sz"))

/-- sar_info.py lines 221-223: `for i, key in enumerate(headers[1:], start=1):
if i < len(parts): data_entry[key] = parts[i]`. The `keys` argument is the
remaining suffix of `headers[1:]` and `i` its running index. -/
def addFields (parts : List String) (i : Nat) (keys : List String) (entry : SarEntry) :
    Except String SarEntry :=
  match keys with
  | [] => .ok entry
  | key :: keys0 =>
    if i < parts.length then
      match pyIndex parts i with
      | .ok v => addFields parts (i + 1) keys0 (dictInsert key v entry)
      | .error msg => .error msg
    else
      addFields parts (i + 1) keys0 entry

/-- sar_info.py lines 216-223: assemble one `data_entry`, starting from the
`date` and `time` fields and mapping header columns positionally. -/
def build_entry (date_str time_str : String) (headers parts : List String) :
    Except String SarEntry :=
  addFields parts 1 (headers.drop 1) [("date", date_str), ("time", time_str)]

/-- sar_info.py lines 181-225: processing of one line of `parse_sar_output`,
returning the new header state and the record the line emits, if any. -/
def pstep (sar_type : String) (average : Bool) (date_str : String)
    (headers : Option (List String)) (line : String) :
    Except String (Option (List String) × Option SarEntry) :=
  let parts := splitWs line
  if parts.isEmpty then .ok (headers, none)
  else if isMarker sar_type parts then .ok (some parts, none)
  else
    match headers with
    | none => .ok (none, none)
    | some hs =>
      match pyIndex parts 0 with
      | .error msg => .error msg
      | .ok p0 =>
        let is_avg := p0 = "Average:"
        if average ∧ ¬ is_avg then .ok (some hs, none)
        else if ¬ average ∧ is_avg then .ok (some hs, none)
        else
          let time_str := if is_avg then "Average" else p0
          match build_entry date_str time_str hs parts with
          | .ok entry => .ok (some hs, some entry)
          | .error msg => .error msg

/-- sar_info.py lines 180-225: the line loop of `parse_sar_output`. -/
def go (sar_type : String) (average : Bool) (date_str : String)
    (headers : Option (List String)) (lines : List String) :
    Except String (List SarEntry) :=
  match lines with
  | [] => .ok []
  | l :: ls =>
    match pstep sar_type average date_str headers l with
    | .error msg => .error msg
    | .ok (h0, none) => go sar_type average date_str h0 ls
    | .ok (h0, some r) =>
      match go sar_type average date_str h0 ls with
      | .ok rs => .ok (r :: rs)
      | .error msg => .error msg

/-- sar_info.py lines 174-227, `parse_sar_output`. -/
def parse_sar_output (output sar_type : String) (average : Bool) (date_str : String) :
    Except String (List SarEntry) :=
  go sar_type average date_str none (splitLines output)

/-- sar_info.py lines 254-257: the date list iterated by `main`. Dates are
embedded as `Int` day ordinals and an unparsed (`None`) bound as `none`;
`datetime.strptime(None, ...)` raises `TypeError`. When the two bounds are
equal (including both `None`) the literal list `[date_start, date_end]` is
iterated; otherwise `range((end - start).days + 1)` (empty when the range is
not positive) generates the dates. -/
def date_list (date_start date_end : Option Int) :
    Except String (List (Option Int)) :=
  if date_start = date_end then .ok [date_start, date_end]
  else
    match date_start, date_end with
    | some s, some e =>
      .ok ((List.range (e - s + 1).toNat).map (fun i => some (s + i)))
    | _, _ => .error "TypeError"

end SarInfo

/-!
## `src/library/sar_facts.py` (12-hour AM/PM dialect)
-/

namespace SarFacts

/-- sar_facts.py lines 148-152: handling of the `Average:` marker — the
marker token is stripped, and a line carrying it is dropped (`none`) unless
`average` was requested. -/
def effParts (average : Bool) (parts : List String) : Option (List String) :=
  match parts with
  | p0 :: rest =>
    if p0 = "Average:" then (if average then some rest else none) else some parts
  | [] => some []

/-- sar_facts.py lines 156 and 161: the shape test for a header or data row —
at least two tokens, a valid `H:MM:SS`/`HH:MM:SS` first token and an `AM`/`PM`
second token. -/
def isDataShape (parts : List String) : Bool :=
  match parts with
  | t0 :: t1 :: _ => is_valid_time t0 && (t1 = "AM" || t1 = "PM")
  | _ => false

/-- sar_facts.py lines 163-167: assemble one `data_entry` —
`{"date": date_str, "time": converted}` then
`for idx in range(1, min(len(header), len(parts))): data_entry[header[idx]] = parts[idx]`. -/
def build_entry (date_str time_str : String) (header parts : List String) : SarEntry :=
  ((List.range (min header.length parts.length)).drop 1).foldl
    (fun e idx => dictInsert (header.getD idx "") (parts.getD idx "") e)
    [("date", date_str), ("time", time_str)]

/-- sar_facts.py lines 139-169: processing of one line of `parse_sar_output`,
returning the new header state and the record the line emits, if any. A
`ValueError` escaping `convert_to_24h` is an `Except.error`. -/
def pstep (average : Bool) (date_str : String)
    (header : Option (List String)) (line : String) :
    Except String (Option (List String) × Option SarEntry) :=
  if isNoiseLine line then .ok (header, none)
  else
    let parts0 := splitWs line
    if parts0.isEmpty then .ok (header, none)
    else
      match effParts average parts0 with
      | none => .ok (header, none)
      | some parts =>
        match header with
        | none =>
          if isDataShape parts then .ok (some parts, none) else .ok (none, none)
        | some hd =>
          if isDataShape parts then
            match convert_to_24h (parts.headD "") (parts.getD 1 "") with
            | .error msg => .error msg
            | .ok conv => .ok (some hd, some (build_entry date_str conv hd parts))
          else .ok (some hd, none)

/-- sar_facts.py lines 139-169: the line loop of `parse_sar_output`. -/
def go (average : Bool) (date_str : String)
    (header : Option (List String)) (lines : List String) :
    Except String (List SarEntry) :=
  match lines with
  | [] => .ok []
  | l :: ls =>
    match pstep average date_str header l with
    | .error msg => .error msg
    | .ok (h0, none) => go average date_str h0 ls
    | .ok (h0, some r) =>
      match go average date_str h0 ls with
      | .ok rs => .ok (r :: rs)
      | .error msg => .error msg

/-- sar_facts.py lines 128-171, `parse_sar_output`. -/
def parse_sar_output (output sar_type : String) (average : Bool) (date_str : String) :
    Except String (List SarEntry) :=
  go average date_str none (splitLines output)

/-- sar_facts.py lines 196-207: the date list computed by `main`. Dates are
embedded as `Int` day ordinals and an absent (`None`) bound as `none`;
`module.fail_json` on a negative range is the `Except.error`. -/
def date_list (date_start date_end : Option Int) : Except String (List Int) :=
  match date_start, date_end with
  | some s, some e =>
    if e - s < 0 then .error "date_end cannot be before date_start."
    else .ok ((List.range (e - s).toNat.succ).map (fun i => s + i))
  | _, _ =>
    .ok (match date_start with | some s => [s] | none => [])

end SarFacts

/-!
## Command builder (identical in both modules:
sar_facts.py lines 99-116 and sar_info.py lines 148-165)
-/

/-- sar_facts.py lines 101-108 / sar_info.py lines 150-157: the `sar_flags`
dictionary; `none` models a `sar_type` key absent from the dictionary. -/
def sar_flags (sar_type : String) (partition : Bool) : Option (List String) :=
  if sar_type = "cpu" then some ["-u"]
  else if sar_type = "memory" then some ["-r"]
  else if sar_type = "swap" then some ["-S"]
  else if sar_type = "network" then some ["-n", "DEV"]
  else if sar_type = "disk" then some (if partition then ["-d", "-p"] else ["-d"])
  else if sar_type = "load" then some ["-q"]
  else none

/-- sar_facts.py lines 99-116 / sar_info.py lines 148-165: the argument list
built by `run_sar_command` before the subprocess call. The time bounds are
Python-falsy when empty (`None` is embedded as `""`, which is equally falsy
and equally unobservable since a falsy bound is never appended). -/
def run_sar_command_argv (sar_bin sar_file sar_type time_start time_end : String)
    (partition : Bool) : List String :=
  let command := [sar_bin, "-f", sar_file]
  let command :=
    match sar_flags sar_type partition with
    | some fs => command ++ fs
    | none => command
  let command := if time_start ≠ "" then command ++ ["-s", time_start] else command
  if time_end ≠ "" then command ++ ["-e", time_end] else command

/-- Modelled from the spec: the claim-C8 / §4.3 category-flag table, written
from the spec's words to compare with the source-derived builder. -/
def claim_category_flags (sar_type : String) (partition : Bool) : List String :=
  if sar_type = "cpu" then ["-u"]
  else if sar_type = "memory" then ["-r"]
  else if sar_type = "swap" then ["-S"]
  else if sar_type = "network" then ["-n", "DEV"]
  else if sar_type = "disk" then (if partition then ["-d", "-p"] else ["-d"])
  else if sar_type = "load" then ["-q"]
  else []

/-!
## Helper lemmas
-/

theorem entryLookup_dictInsert_self (k v : String) (e : SarEntry) :
    entryLookup k (dictInsert k v e) = some v := by
  induction e with
  | nil => simp [dictInsert, entryLookup]
  | cons p rest ih =>
    obtain ⟨k0, v0⟩ := p
    by_cases h : k0 = k
    · subst h; simp [dictInsert, entryLookup]
    · simp [dictInsert, entryLookup, h, ih]

theorem entryLookup_dictInsert_ne {k k0 : String} (h : k ≠ k0) (v : String) (e : SarEntry) :
    entryLookup k (dictInsert k0 v e) = entryLookup k e := by
  induction e with
  | nil => simp [dictInsert, entryLookup, Ne.symm h]
  | cons p rest ih =>
    obtain ⟨k1, v1⟩ := p
    by_cases h1 : k1 = k0
    · subst h1
      have : k1 ≠ k := fun h2 => h h2.symm
      simp [dictInsert, entryLookup, this]
    · by_cases h2 : k1 = k
      · subst h2; simp [dictInsert, entryLookup, h1]
      · simp [dictInsert, entryLookup, h1, h2, ih]

theorem pyIndex_lt (xs : List String) (i : Nat) (h : i < xs.length) :
    pyIndex xs i = .ok (xs.getD i "") := by
  unfold pyIndex
  simp [List.getElem?_eq_getElem h, List.getD_eq_getElem _ _ h]

theorem addFields_ok (keys : List String) :
    ∀ (parts : List String) (i : Nat) (entry : SarEntry),
    ∃ e0, SarInfo.addFields parts i keys entry = .ok e0 := by
  induction keys with
  | nil => intro parts i entry; exact ⟨entry, rfl⟩
  | cons key keys0 ih =>
    intro parts i entry
    by_cases hi : i < parts.length
    · have hp := pyIndex_lt parts i hi
      simp only [SarInfo.addFields, if_pos hi, hp]
      exact ih parts (i + 1) (dictInsert key (parts.getD i "") entry)
    · simp only [SarInfo.addFields, if_neg hi]
      exact ih parts (i + 1) entry

theorem addFields_frame (k : String) (keys : List String) :
    ∀ (parts : List String) (i : Nat) (entry e0 : SarEntry),
    SarInfo.addFields parts i keys entry = .ok e0 → k ∉ keys →
    entryLookup k e0 = entryLookup k entry := by
  induction keys with
  | nil =>
    intro parts i entry e0 h _
    simp only [SarInfo.addFields] at h
    cases h; rfl
  | cons key keys0 ih =>
    intro parts i entry e0 h hk
    have hkne : k ≠ key := fun h2 => hk (h2 ▸ List.mem_cons_self key keys0)
    have hk0 : k ∉ keys0 := fun h2 => hk (List.mem_cons_of_mem key h2)
    by_cases hi : i < parts.length
    · rw [show SarInfo.addFields parts i (key :: keys0) entry =
          SarInfo.addFields parts (i + 1) keys0
            (dictInsert key (parts.getD i "") entry) by
        simp only [SarInfo.addFields, if_pos hi, pyIndex_lt parts i hi]] at h
      rw [ih parts (i + 1) _ e0 h hk0, entryLookup_dictInsert_ne hkne]
    · rw [show SarInfo.addFields parts i (key :: keys0) entry =
          SarInfo.addFields parts (i + 1) keys0 entry by
        simp only [SarInfo.addFields, if_neg hi]] at h
      exact ih parts (i + 1) entry e0 h hk0

theorem addFields_lookup (keys : List String) :
    ∀ (parts : List String) (i : Nat) (entry e0 : SarEntry),
    SarInfo.addFields parts i keys entry = .ok e0 → keys.Nodup →
    ∀ j, j < keys.length →
      (i + j < parts.length →
        entryLookup (keys.getD j "") e0 = some (parts.getD (i + j) "")) ∧
      (parts.length ≤ i + j →
        entryLookup (keys.getD j "") e0 = entryLookup (keys.getD j "") entry) := by
  induction keys with
  | nil => intro parts i entry e0 _ _ j hj; exact absurd hj (by simp)
  | cons key keys0 ih =>
    intro parts i entry e0 h hnd j hj
    have hkey0 : key ∉ keys0 := (List.nodup_cons.mp hnd).1
    have hnd0 : keys0.Nodup := (List.nodup_cons.mp hnd).2
    by_cases hi : i < parts.length
    · rw [show SarInfo.addFields parts i (key :: keys0) entry =
          SarInfo.addFields parts (i + 1) keys0
            (dictInsert key (parts.getD i "") entry) by
        simp only [SarInfo.addFields, if_pos hi, pyIndex_lt parts i hi]] at h
      cases j with
      | zero =>
        refine ⟨fun _ => ?_, fun hge => absurd hi (by omega)⟩
        rw [Nat.add_zero, List.getD_cons_zero,
          addFields_frame key keys0 parts (i + 1) _ e0 h hkey0,
          entryLookup_dictInsert_self]
      | succ j0 =>
        have hj0 : j0 < keys0.length := by simpa using hj
        have hmem : keys0.getD j0 "" ∈ keys0 := by
          rw [List.getD_eq_getElem _ _ hj0]; exact List.getElem_mem hj0
        have hne : keys0.getD j0 "" ≠ key := fun h2 => hkey0 (h2 ▸ hmem)
        have := ih parts (i + 1) _ e0 h hnd0 j0 hj0
        constructor
        · intro hlt
          rw [List.getD_cons_succ]
          have := this.1 (by omega)
          rwa [show i + 1 + j0 = i + (j0 + 1) by omega] at this
        · intro hge
          rw [List.getD_cons_succ]
          have h2 := this.2 (by omega)
          rw [h2, entryLookup_dictInsert_ne hne]
    · rw [show SarInfo.addFields parts i (key :: keys0) entry =
          SarInfo.addFields parts (i + 1) keys0 entry by
        simp only [SarInfo.addFields, if_neg hi]] at h
      cases j with
      | zero =>
        refine ⟨fun hlt => absurd hlt (by omega), fun _ => ?_⟩
        rw [List.getD_cons_zero, addFields_frame key keys0 parts (i + 1) _ e0 h hkey0]
      | succ j0 =>
        have hj0 : j0 < keys0.length := by simpa using hj
        have := ih parts (i + 1) entry e0 h hnd0 j0 hj0
        constructor
        · intro hlt; exact absurd hlt (by omega)
        · intro hge
          rw [List.getD_cons_succ]
          have h2 := this.2 (by omega)
          exact h2

theorem build_entry_ok (d ts : String) (hs parts : List String) :
    ∃ e0, SarInfo.build_entry d ts hs parts = .ok e0 := by
  unfold SarInfo.build_entry
  exact addFields_ok (hs.drop 1) parts 1 [("date", d), ("time", ts)]

theorem pstep_ok (ty : String) (avg : Bool) (d : String)
    (h : Option (List String)) (line : String) :
    ∃ st r, SarInfo.pstep ty avg d h line = .ok (st, r) := by
  unfold SarInfo.pstep
  by_cases he : (splitWs line).isEmpty
  · exact ⟨h, none, by simp [he]⟩
  · have hne : splitWs line ≠ [] := fun h2 => he (by simp [h2])
    have hlen : 0 < (splitWs line).length := List.length_pos.mpr hne
    by_cases hm : SarInfo.isMarker ty (splitWs line)
    · exact ⟨some (splitWs line), none, by simp [he, hm]⟩
    · match h with
      | none => exact ⟨none, none, by simp [he, hm]⟩
      | some hs =>
        obtain ⟨p, ps, hsp⟩ : ∃ p ps, splitWs line = p :: ps := by
          match hsp : splitWs line with
          | [] => exact absurd hsp hne
          | p :: ps => exact ⟨p, ps, rfl⟩
        rw [hsp] at he hm
        simp only [hsp, he, hm, Bool.false_eq_true, if_false, if_true]
        have hpy : pyIndex (p :: ps) 0 = .ok p := rfl
        simp only [hpy]
        cases avg with
        | true =>
          by_cases hp0 : p = "Average:"
          · subst hp0
            obtain ⟨e0, he0⟩ := build_entry_ok d "Average" hs ("Average:" :: ps)
            exact ⟨some hs, some e0, by simp [he0]⟩
          · exact ⟨some hs, none, by simp [hp0]⟩
        | false =>
          by_cases hp0 : p = "Average:"
          · exact ⟨some hs, none, by simp [hp0]⟩
          · obtain ⟨e0, he0⟩ := build_entry_ok d p hs (p :: ps)
            exact ⟨some hs, some e0, by simp [hp0, he0]⟩

theorem go_ok (ty : String) (avg : Bool) (d : String) :
    ∀ (lines : List String) (h : Option (List String)),
    ∃ recs, SarInfo.go ty avg d h lines = .ok recs := by
  intro lines
  induction lines with
  | nil => intro h; exact ⟨[], rfl⟩
  | cons l ls ih =>
    intro h
    obtain ⟨st, r, hp⟩ := pstep_ok ty avg d h l
    obtain ⟨recs, hg⟩ := ih st
    match r with
    | none => exact ⟨recs, by simp [SarInfo.go, hp, hg]⟩
    | some r0 => exact ⟨r0 :: recs, by simp [SarInfo.go, hp, hg]⟩

theorem facts_pstep_noise (avg : Bool) (d : String) (h : Option (List String))
    (line : String) (hn : isNoiseLine line = true) :
    SarFacts.pstep avg d h line = .ok (h, none) := by
  unfold SarFacts.pstep
  simp [hn]

theorem facts_pstep_keeps_header (avg : Bool) (d : String) (hd : List String)
    (line : String) (st : Option (List String)) (r : Option SarEntry)
    (h : SarFacts.pstep avg d (some hd) line = .ok (st, r)) : st = some hd := by
  unfold SarFacts.pstep at h
  by_cases hn : isNoiseLine line = true
  · simp [hn] at h; exact h.1.symm
  · simp only [hn, Bool.false_eq_true, if_false] at h
    by_cases he : (splitWs line).isEmpty
    · simp [he] at h; exact h.1.symm
    · simp only [he, Bool.false_eq_true, if_false] at h
      match hef : SarFacts.effParts avg (splitWs line) with
      | none => rw [hef] at h; simp at h; exact h.1.symm
      | some parts =>
        rw [hef] at h
        by_cases hds : SarFacts.isDataShape parts = true
        · simp only [hds, if_true] at h
          match hcv : convert_to_24h (parts.headD "") (parts.getD 1 "") with
          | .error msg => rw [hcv] at h; cases h
          | .ok conv => rw [hcv] at h; simp at h; exact h.1.symm
        · simp [hds] at h; exact h.1.symm

theorem facts_go_skips_noise (avg : Bool) (d : String) :
    ∀ (pre : List String) (h : Option (List String)) (post : List String) (line : String),
    isNoiseLine line = true →
    SarFacts.go avg d h (pre ++ line :: post) = SarFacts.go avg d h (pre ++ post) := by
  intro pre
  induction pre with
  | nil =>
    intro h post line hn
    simp only [List.nil_append, SarFacts.go, facts_pstep_noise avg d h line hn]
  | cons p pre0 ih =>
    intro h post line hn
    simp only [List.cons_append, SarFacts.go]
    cases hp : SarFacts.pstep avg d h p with
    | error msg => rfl
    | ok pr =>
      obtain ⟨h0, r⟩ := pr
      cases r with
      | none => exact ih h0 post line hn
      | some r0 =>
        simp only [List.append_eq]
        rw [ih h0 post line hn]

/-!
## Claim theorems
-/

/-- C1 (code evaluated at the failing inputs): in sar_info's `main`,
supplying only `date_start` makes the date iteration call
`datetime.strptime(None, ...)`, which raises `TypeError` instead of querying
that single date; and supplying `date_start = date_end` iterates the literal
list `[date_start, date_end]`, querying the shared date twice instead of
once. sar_facts' `main` queries the shared date once, as the claim states. -/
theorem C1_sar_info_date_iteration :
    SarInfo.date_list (some 0) none = .error "TypeError" ∧
    SarInfo.date_list (some 0) (some 0) = .ok [some 0, some 0] ∧
    SarFacts.date_list (some 0) (some 0) = .ok [0] :=
  ⟨rfl, rfl, rfl⟩

/-- C2 counterexample: for `date_start` one day after `date_end`, sar_info's
orchestrator does not fail — `range((end - start).days + 1)` is empty, so it
returns an empty (successful) date list rather than an input-range error. -/
theorem C2_reversed_range_counterexample :
    SarInfo.date_list (some 1) (some 0) = .ok [] :=
  rfl

/-- C2 as amended: when `date_end` precedes `date_start`, the sar_facts
orchestrator fails fatally with the range error and produces no dates, while
the sar_info orchestrator silently produces an empty date list (hence an
empty, successful result) instead of an error. -/
theorem C2_reversed_range (s e : Int) (h : e < s) :
    SarFacts.date_list (some s) (some e) = .error "date_end cannot be before date_start." ∧
    SarInfo.date_list (some s) (some e) = .ok [] := by
  constructor
  · have h1 : e - s < 0 := by omega
    simp [SarFacts.date_list, h1]
  · have hne : ¬ ((some s : Option Int) = some e) := by
      intro h2
      injection h2 with h3
      omega
    have h0 : (e - s + 1).toNat = 0 := Int.toNat_of_nonpos (by omega)
    simp [SarInfo.date_list, hne, h0]

/-- C2 witness: the amended statement applied at the concrete reversed range
start = day 1, end = day 0. -/
theorem C2_reversed_range_witness :
    (0 : Int) < 1 ∧
    (SarFacts.date_list (some 1) (some 0) = .error "date_end cannot be before date_start." ∧
     SarInfo.date_list (some 1) (some 0) = .ok []) :=
  ⟨by decide, C2_reversed_range 1 0 (by decide)⟩

/-- C10: the marker-dialect parser (sar_info's `parse_sar_output`) is total —
for every input text, category, average flag and date string it returns a
(possibly empty) list of records and never reaches a raising operation:
empty token lists are skipped before `parts[0]` is read, and the field loop
only indexes `parts[i]` under the guard `i < len(parts)`. -/
theorem C10_parse_total (output ty : String) (avg : Bool) (d : String) :
    ∃ recs, SarInfo.parse_sar_output output ty avg d = .ok recs := by
  unfold SarInfo.parse_sar_output
  exact go_ok ty avg d (splitLines output) none

/-- C6 counterexample: sar_info's parser has no `Linux`/`restart` filter — a
post-header line `12:00:01 LINUX RESTART` is kept as a data row and reflected
in an emitted record. -/
theorem C6_noise_counterexample :
    isNoiseLine "12:00:01 LINUX RESTART" = true ∧
    SarInfo.parse_sar_output "h %user\n12:00:01 LINUX RESTART" "cpu" false "2025-02-06" =
      .ok [[("date", "2025-02-06"), ("time", "12:00:01"), ("%user", "LINUX")]] :=
  ⟨by decide, rfl⟩

/-- C6 as amended: in the 12-hour dialect (sar_facts), any line containing a
whole-word, case-insensitive `Linux` or `restart` match is discarded wherever
it occurs — parsing with the line present equals parsing with it removed, so
it is never reflected in any emitted record. (sar_info has no such filter;
see the counterexample.) -/
theorem C6_noise_filter (avg : Bool) (d : String) (h : Option (List String))
    (pre post : List String) (line : String) (hn : isNoiseLine line = true) :
    SarFacts.go avg d h (pre ++ line :: post) = SarFacts.go avg d h (pre ++ post) :=
  facts_go_skips_noise avg d pre h post line hn

/-- C6 witness: the amended statement applied to a concrete kernel banner
line inserted between a header line and a data line. -/
theorem C6_noise_filter_witness :
    isNoiseLine "Linux 3.10.0-1160.el7.x86_64 (host)" = true ∧
    SarFacts.go false "2025-02-06" none
      (["12:00:01 AM CPU %user"] ++ "Linux 3.10.0-1160.el7.x86_64 (host)" :: ["01:10:05 AM all 3.5"]) =
    SarFacts.go false "2025-02-06" none (["12:00:01 AM CPU %user"] ++ ["01:10:05 AM all 3.5"]) :=
  ⟨by decide,
   C6_noise_filter false "2025-02-06" none ["12:00:01 AM CPU %user"]
     ["01:10:05 AM all 3.5"] "Linux 3.10.0-1160.el7.x86_64 (host)" (by decide)⟩

/-- C9: in the 12-hour dialect, `convert_to_24h` maps `02:30:15 PM` to
`14:30:15` and `12:00:00 AM` to `00:00:00`, and the records emitted by
sar_facts' `parse_sar_output` carry the converted 24-hour value in their
`time` field. -/
theorem C9_convert_roundtrip :
    convert_to_24h "02:30:15" "PM" = .ok "14:30:15" ∧
    convert_to_24h "12:00:00" "AM" = .ok "00:00:00" ∧
    SarFacts.parse_sar_output
      "12:00:01 AM CPU %user %system\n02:30:15 PM all 3.50 1.20\n12:00:00 AM all 0.10 0.20"
      "cpu" false "2025-02-06" =
      .ok [[("date", "2025-02-06"), ("time", "14:30:15"), ("AM", "PM"), ("CPU", "all"),
            ("%user", "3.50"), ("%system", "1.20")],
           [("date", "2025-02-06"), ("time", "00:00:00"), ("AM", "AM"), ("CPU", "all"),
            ("%user", "0.10"), ("%system", "0.20")]] :=
  ⟨rfl, rfl, rfl⟩

theorem pstep_post_header (ty : String) (avg : Bool) (d : String) (hs : List String)
    (line : String) (p : String) (ps : List String)
    (hsp : splitWs line = p :: ps) (hm : SarInfo.isMarker ty (p :: ps) = false) :
    SarInfo.pstep ty avg d (some hs) line =
      if avg ∧ ¬ (p = "Average:") then .ok (some hs, none)
      else if ¬ avg ∧ (p = "Average:") then .ok (some hs, none)
      else
        match SarInfo.build_entry d (if p = "Average:" then "Average" else p) hs (p :: ps) with
        | .ok entry => .ok (some hs, some entry)
        | .error msg => .error msg := by
  unfold SarInfo.pstep
  simp only [hsp, List.isEmpty_cons, Bool.false_eq_true, if_false, hm]
  rfl

theorem build_entry_time (d ts : String) (hs parts : List String) (e0 : SarEntry)
    (h : SarInfo.build_entry d ts hs parts = .ok e0) (htime : "time" ∉ hs.drop 1) :
    entryLookup "time" e0 = some ts := by
  unfold SarInfo.build_entry at h
  rw [addFields_frame "time" (hs.drop 1) parts 1 _ e0 h htime]
  simp [entryLookup]

theorem build_entry_date (d ts : String) (hs parts : List String) (e0 : SarEntry)
    (h : SarInfo.build_entry d ts hs parts = .ok e0) (hdate : "date" ∉ hs.drop 1) :
    entryLookup "date" e0 = some d := by
  unfold SarInfo.build_entry at h
  rw [addFields_frame "date" (hs.drop 1) parts 1 _ e0 h hdate]
  simp [entryLookup]

/-- C4 counterexample: a later marker line re-establishes the header in
sar_info — with two `%user` lines, the data row is mapped by the second
header (`a2 %user y`), so the record carries a `y` field and not the `x`
column of the first header; and in sar_facts the header is not established
by the `%user` marker line at all but by the first time/AM line, so the
record's fields come from `01:00:00 AM 5` rather than `x %user y`. -/
theorem C4_header_counterexample :
    SarInfo.parse_sar_output "a1 %user x\na2 %user y\n09:00:00 1 2" "cpu" false "2025-02-06" =
      .ok [[("date", "2025-02-06"), ("time", "09:00:00"), ("%user", "1"), ("y", "2")]] ∧
    SarFacts.parse_sar_output "x %user y\n01:00:00 AM 5\n02:00:00 PM 7" "cpu" false "2025-02-06" =
      .ok [[("date", "2025-02-06"), ("time", "14:00:00"), ("AM", "PM"), ("5", "7")]] :=
  ⟨rfl, rfl⟩

/-- C4 as amended: in the marker dialect (sar_info), every line whose tokens
contain the category's marker token (re-)establishes the header row —
regardless of whether a header is already set — so the active header is the
most recently seen marker line; in the 12-hour dialect (sar_facts) the header
is the first line whose first two tokens are a valid time and an AM/PM
marker, and once set it is never changed by any later line. -/
theorem C4_header_establishment :
    (∀ (ty : String) (avg : Bool) (d : String) (h : Option (List String)) (line : String),
      splitWs line ≠ [] → SarInfo.isMarker ty (splitWs line) = true →
      SarInfo.pstep ty avg d h line = .ok (some (splitWs line), none)) ∧
    (∀ (avg : Bool) (d : String) (hd : List String) (line : String)
      (st : Option (List String)) (r : Option SarEntry),
      SarFacts.pstep avg d (some hd) line = .ok (st, r) → st = some hd) := by
  constructor
  · intro ty avg d h line hne hm
    unfold SarInfo.pstep
    have he : (splitWs line).isEmpty = false := by
      cases hsp : splitWs line with
      | nil => exact absurd hsp hne
      | cons a as => rfl
    simp [he, hm]
  · exact fun avg d hd line st r h => facts_pstep_keeps_header avg d hd line st r h

/-- C4 witness: the amended statement applied to a concrete second marker
line (given an already-established header) and to a concrete sar_facts step
from an established header state. -/
theorem C4_header_establishment_witness :
    SarInfo.pstep "cpu" false "2025-02-06" (some ["a1", "%user", "x"]) "a2 %user y" =
      .ok (some ["a2", "%user", "y"], none) ∧
    (some ["01:00:00", "AM", "5"] : Option (List String)) = some ["01:00:00", "AM", "5"] :=
  ⟨C4_header_establishment.1 "cpu" false "2025-02-06" (some ["a1", "%user", "x"])
      "a2 %user y" (by decide) (by decide),
   C4_header_establishment.2 false "2025-02-06" ["01:00:00", "AM", "5"] "junk line"
      (some ["01:00:00", "AM", "5"]) none rfl⟩

/-- C3 counterexample: with `average=true`, the 12-hour dialect (sar_facts)
still keeps timestamped rows and emits no record at all for an `Average:`
row (after stripping the marker the row no longer starts with a time, so it
is discarded, and no `time == "Average"` record exists); and with
`average=false`, the marker dialect (sar_info) keeps a non-timestamped row,
so it is not true that only timestamped rows are kept. -/
theorem C3_average_counterexample :
    SarFacts.parse_sar_output "12:00:01 AM CPU %user\n01:10:05 AM all 3.5" "cpu" true "2025-02-06" =
      .ok [[("date", "2025-02-06"), ("time", "01:10:05"), ("AM", "AM"), ("CPU", "all"),
            ("%user", "3.5")]] ∧
    SarFacts.parse_sar_output "12:00:01 AM CPU %user\nAverage: all 3.5" "cpu" true "2025-02-06" =
      .ok [] ∧
    SarInfo.parse_sar_output "h %user\nfoo 42" "cpu" false "2025-02-06" =
      .ok [[("date", "2025-02-06"), ("time", "foo"), ("%user", "42")]] :=
  ⟨rfl, rfl, rfl⟩

/-- C3 as amended, for the marker dialect (sar_info), per post-header
non-marker line: when `average` is true, a line is kept exactly when its
first token is literally `Average:`, and the kept record's `time` field is
the literal string `Average`; when `average` is false, `Average:` lines are
discarded and every other line is kept (timestamped or not), the record's
`time` field being the line's first token. (The 12-hour dialect behaves
differently; see the counterexample.) -/
theorem C3_average_filter (ty : String) (avg : Bool) (d : String)
    (hs : List String) (line : String)
    (hne : splitWs line ≠ []) (hm : SarInfo.isMarker ty (splitWs line) = false)
    (htime : "time" ∉ hs.drop 1) :
    ((splitWs line).headD "" = "Average:" →
      (avg = true → ∃ r, SarInfo.pstep ty avg d (some hs) line = .ok (some hs, some r) ∧
        entryLookup "time" r = some "Average") ∧
      (avg = false → SarInfo.pstep ty avg d (some hs) line = .ok (some hs, none))) ∧
    ((splitWs line).headD "" ≠ "Average:" →
      (avg = true → SarInfo.pstep ty avg d (some hs) line = .ok (some hs, none)) ∧
      (avg = false → ∃ r, SarInfo.pstep ty avg d (some hs) line = .ok (some hs, some r) ∧
        entryLookup "time" r = some ((splitWs line).headD ""))) := by
  obtain ⟨p, ps, hsp⟩ : ∃ p ps, splitWs line = p :: ps := by
    match hsp : splitWs line with
    | [] => exact absurd hsp hne
    | p :: ps => exact ⟨p, ps, rfl⟩
  rw [hsp] at hm
  rw [hsp, List.headD_cons]
  rw [pstep_post_header ty avg d hs line p ps hsp hm]
  constructor
  · intro hp0
    subst hp0
    constructor
    · intro ha
      subst ha
      obtain ⟨e0, he0⟩ := build_entry_ok d "Average" hs ("Average:" :: ps)
      refine ⟨e0, ?_, build_entry_time d "Average" hs ("Average:" :: ps) e0 he0 htime⟩
      simp [he0]
    · intro ha
      subst ha
      simp
  · intro hp0
    constructor
    · intro ha
      subst ha
      simp [hp0]
    · intro ha
      subst ha
      obtain ⟨e0, he0⟩ := build_entry_ok d p hs (p :: ps)
      refine ⟨e0, ?_, build_entry_time d p hs (p :: ps) e0 he0 htime⟩
      simp [hp0, he0]

/-- C3 witness: the amended statement applied to a concrete `Average:` line
with `average=true` (record kept, `time == "Average"`). -/
theorem C3_average_filter_witness :
    (∃ r, SarInfo.pstep "cpu" true "2025-02-06" (some ["T", "%user"]) "Average: 3.5" =
        .ok (some ["T", "%user"], some r) ∧
      entryLookup "time" r = some "Average") :=
  ((C3_average_filter "cpu" true "2025-02-06" ["T", "%user"] "Average: 3.5"
      (by decide) (by decide) (by decide)).1 (by decide)).1 rfl

/-- C5 counterexample: sar_info performs no timestamp validation — a
post-header row whose first token `notatime` does not match the
hour:minute:second pattern is nevertheless kept and emitted as a record. -/
theorem C5_time_counterexample :
    SarInfo.parse_sar_output "hdr %usr\nnotatime 7" "cpu" false "2025-02-06" =
      .ok [[("date", "2025-02-06"), ("time", "notatime"), ("%usr", "7")]] ∧
    is_valid_time "notatime" = false :=
  ⟨rfl, by decide⟩

/-- C5 as amended: in the 12-hour dialect (sar_facts), every line kept as a
data row has, after optional `Average:` stripping, a first token matching
the 1-2-digit-hour:2-digit-minute:2-digit-second pattern and an `AM`/`PM`
second token; the marker dialect (sar_info) performs no such validation (see
the counterexample). -/
theorem C5_time_validation (avg : Bool) (d : String) (hd : List String)
    (line : String) (st : Option (List String)) (r : SarEntry)
    (h : SarFacts.pstep avg d (some hd) line = .ok (st, some r)) :
    ∃ t0 t1 rest, SarFacts.effParts avg (splitWs line) = some (t0 :: t1 :: rest) ∧
      is_valid_time t0 = true ∧ (t1 = "AM" ∨ t1 = "PM") := by
  unfold SarFacts.pstep at h
  by_cases hn : isNoiseLine line = true
  · simp [hn] at h
  · simp only [hn, Bool.false_eq_true, if_false] at h
    by_cases he : (splitWs line).isEmpty
    · simp [he] at h
    · simp only [he, Bool.false_eq_true, if_false] at h
      match hef : SarFacts.effParts avg (splitWs line) with
      | none => rw [hef] at h; simp at h
      | some parts =>
        rw [hef] at h
        by_cases hds : SarFacts.isDataShape parts = true
        · obtain ⟨t0, t1, rest, hp⟩ : ∃ t0 t1 rest, parts = t0 :: t1 :: rest := by
            match parts, hds with
            | [], hds => simp [SarFacts.isDataShape] at hds
            | [t0], hds => simp [SarFacts.isDataShape] at hds
            | t0 :: t1 :: rest, _ => exact ⟨t0, t1, rest, rfl⟩
          subst hp
          simp only [SarFacts.isDataShape, Bool.and_eq_true, Bool.or_eq_true,
            decide_eq_true_eq] at hds
          exact ⟨t0, t1, rest, rfl, hds.1, hds.2⟩
        · simp [hds] at h

/-- C5 witness: the amended statement applied to a concrete kept data row
`02:30:15 PM 7` under an established header. -/
theorem C5_time_validation_witness :
    ∃ t0 t1 rest,
      SarFacts.effParts false (splitWs "02:30:15 PM 7") = some (t0 :: t1 :: rest) ∧
      is_valid_time t0 = true ∧ (t1 = "AM" ∨ t1 = "PM") :=
  C5_time_validation false "2025-02-06" ["h"] "02:30:15 PM 7" (some ["h"])
    [("date", "2025-02-06"), ("time", "14:30:15")] rfl

theorem getD_tail_mem (hs : List String) (i : Nat) (h1 : 1 ≤ i) (h2 : i < hs.length) :
    hs.getD i "" ∈ hs.drop 1 := by
  match hs, h2 with
  | [], h2 => exact absurd h2 (by simp)
  | x :: xs, h2 =>
    obtain ⟨j, rfl⟩ : ∃ j, i = j + 1 := ⟨i - 1, by omega⟩
    rw [List.getD_cons_succ]
    have hj : j < xs.length := by
      simp only [List.length_cons] at h2
      omega
    rw [List.getD_eq_getElem _ _ hj]
    exact List.getElem_mem hj

theorem getD_tail_ne {hs : List String} (hnd : (hs.drop 1).Nodup) {i1 i2 : Nat}
    (ha : 1 ≤ i1) (hb : i1 < hs.length) (hc : 1 ≤ i2) (hd : i2 < hs.length)
    (hne : i1 ≠ i2) : hs.getD i1 "" ≠ hs.getD i2 "" := by
  match hs, hnd, hb, hd with
  | [], _, hb, _ => exact absurd hb (by simp)
  | x :: xs, hnd, hb, hd =>
    have hnd2 : xs.Nodup := hnd
    obtain ⟨j1, rfl⟩ : ∃ j, i1 = j + 1 := ⟨i1 - 1, by omega⟩
    obtain ⟨j2, rfl⟩ : ∃ j, i2 = j + 1 := ⟨i2 - 1, by omega⟩
    rw [List.getD_cons_succ, List.getD_cons_succ]
    have hj1 : j1 < xs.length := by
      simp only [List.length_cons] at hb
      omega
    have hj2 : j2 < xs.length := by
      simp only [List.length_cons] at hd
      omega
    rw [List.getD_eq_getElem _ _ hj1, List.getD_eq_getElem _ _ hj2]
    intro hcontra
    have : j1 = j2 := (List.Nodup.getElem_inj_iff hnd2).mp hcontra
    omega

theorem factsFold_lookup (hs parts : List String) (d ts : String) :
    ∀ n : Nat, n < hs.length →
    (hs.drop 1).Nodup → "date" ∉ hs.drop 1 → "time" ∉ hs.drop 1 →
    ∀ e : SarEntry,
    e = (List.map Nat.succ (List.range n)).foldl
      (fun e0 idx => dictInsert (hs.getD idx "") (parts.getD idx "") e0)
      [("date", d), ("time", ts)] →
    entryLookup "date" e = some d ∧
    entryLookup "time" e = some ts ∧
    (∀ i, 1 ≤ i → i ≤ n → entryLookup (hs.getD i "") e = some (parts.getD i "")) ∧
    (∀ i, n < i → i < hs.length → entryLookup (hs.getD i "") e = none) := by
  intro n
  induction n with
  | zero =>
    intro hn hnd hd1 ht1 e he
    subst he
    simp only [List.range_zero, List.map_nil, List.foldl_nil]
    refine ⟨?_, ?_, ?_, ?_⟩
    · simp [entryLookup]
    · simp [entryLookup]
    · intro i h1 h2
      exact absurd h2 (by omega)
    · intro i hgt hlt
      have hmem := getD_tail_mem hs i (by omega) hlt
      have hne1 : ¬ ("date" = hs.getD i "") := by
        intro hc
        rw [← hc] at hmem
        exact hd1 hmem
      have hne2 : ¬ ("time" = hs.getD i "") := by
        intro hc
        rw [← hc] at hmem
        exact ht1 hmem
      simp only [entryLookup]
      rw [if_neg hne1, if_neg hne2]
  | succ n ih =>
    intro hn hnd hd1 ht1 e he
    rw [List.range_succ, List.map_append, List.foldl_append] at he
    simp only [List.map_cons, List.map_nil, List.foldl_cons, List.foldl_nil,
      Nat.succ_eq_add_one] at he
    have hE := ih (by omega) hnd hd1 ht1 _ rfl
    have hmem := getD_tail_mem hs (n + 1) (by omega) hn
    have hkd : ¬ ("date" = hs.getD (n + 1) "") := by
      intro hc
      rw [← hc] at hmem
      exact hd1 hmem
    have hkt : ¬ ("time" = hs.getD (n + 1) "") := by
      intro hc
      rw [← hc] at hmem
      exact ht1 hmem
    subst he
    refine ⟨?_, ?_, ?_, ?_⟩
    · rw [entryLookup_dictInsert_ne hkd]
      exact hE.1
    · rw [entryLookup_dictInsert_ne hkt]
      exact hE.2.1
    · intro i h1 h2
      by_cases hi : i = n + 1
      · subst hi
        exact entryLookup_dictInsert_self _ _ _
      · have hke : hs.getD i "" ≠ hs.getD (n + 1) "" :=
          getD_tail_ne hnd h1 (by omega) (by omega) hn hi
        rw [entryLookup_dictInsert_ne hke]
        exact hE.2.2.1 i h1 (by omega)
    · intro i hgt hlt
      have hke : hs.getD i "" ≠ hs.getD (n + 1) "" :=
        getD_tail_ne hnd (by omega) hlt (by omega) hn (by omega)
      rw [entryLookup_dictInsert_ne hke]
      exact hE.2.2.2 i (by omega) hlt

theorem facts_build_entry_fields (d ts : String) (hs parts : List String)
    (hnd : (hs.drop 1).Nodup) (hd1 : "date" ∉ hs.drop 1) (ht1 : "time" ∉ hs.drop 1) :
    entryLookup "date" (SarFacts.build_entry d ts hs parts) = some d ∧
    entryLookup "time" (SarFacts.build_entry d ts hs parts) = some ts ∧
    (∀ i, 1 ≤ i → i < min hs.length parts.length →
      entryLookup (hs.getD i "") (SarFacts.build_entry d ts hs parts) = some (parts.getD i "")) ∧
    (∀ i, 1 ≤ i → parts.length ≤ i → i < hs.length →
      entryLookup (hs.getD i "") (SarFacts.build_entry d ts hs parts) = none) := by
  match hs, hnd, hd1, ht1 with
  | [], _, _, _ =>
    refine ⟨?_, ?_, ?_, ?_⟩
    · simp [SarFacts.build_entry, entryLookup]
    · simp [SarFacts.build_entry, entryLookup]
    · intro i h1 h2
      exact absurd h2 (by simp)
    · intro i h1 hge hlt
      exact absurd hlt (by simp)
  | x :: xs, hnd, hd1, ht1 =>
    have hrange : (List.range (min (x :: xs).length parts.length)).drop 1 =
        List.map Nat.succ (List.range (min (x :: xs).length parts.length - 1)) := by
      cases hm : min (x :: xs).length parts.length with
      | zero => rfl
      | succ n =>
        rw [List.range_succ_eq_map]
        rfl
    have hnlt : min (x :: xs).length parts.length - 1 < (x :: xs).length := by
      have hmle := min_le_left (x :: xs).length parts.length
      simp only [List.length_cons] at hmle ⊢
      omega
    have hfold := factsFold_lookup (x :: xs) parts d ts
      (min (x :: xs).length parts.length - 1) hnlt hnd hd1 ht1
      (SarFacts.build_entry d ts (x :: xs) parts)
      (by unfold SarFacts.build_entry; rw [hrange])
    have hmle2 := min_le_right (x :: xs).length parts.length
    refine ⟨hfold.1, hfold.2.1, ?_, ?_⟩
    · intro i h1 h2
      exact hfold.2.2.1 i h1 (by omega)
    · intro i h1 hge hlt
      exact hfold.2.2.2 i (by omega) hlt

/-- C7 counterexample: with a duplicated header name the Python dict keeps
only the last positional assignment — header `x %user %user` and data row
`09:00:00 1 2` yield a record whose `%user` field is `2` (tokens[2]), not
`1` (tokens[1]), so the record does not map `HeaderRow[1]` to `tokens[1]`. -/
theorem C7_record_fields_counterexample :
    SarInfo.parse_sar_output "x %user %user\n09:00:00 1 2" "cpu" false "2025-02-06" =
      .ok [[("date", "2025-02-06"), ("time", "09:00:00"), ("%user", "2")]] ∧
    entryLookup "%user" [("date", "2025-02-06"), ("time", "09:00:00"), ("%user", "2")] ≠
      some "1" :=
  ⟨rfl, by decide⟩

/-- C7 as amended: provided the header columns after index 0 are pairwise
distinct and none of them is named `date` or `time`, every record built by
either dialect's record construction (sar_info's `build_entry`, first
conjunct, and sar_facts' `build_entry`, second conjunct) has `date` equal to
the orchestrator-supplied date string and `time` equal to the computed time
string, maps the field named `HeaderRow[i]` to `tokens[i]` for every
`1 ≤ i < min(len(HeaderRow), len(tokens))`, and contains no field for header
columns at positions past the end of a short data line (no null-filling);
with duplicate header names the last occurrence's token wins, and a column
named `date` or `time` would overwrite those fields. -/
theorem C7_record_fields (d ts : String) (hs parts : List String) (e : SarEntry)
    (he : SarInfo.build_entry d ts hs parts = .ok e)
    (hnd : (hs.drop 1).Nodup)
    (hd1 : "date" ∉ hs.drop 1) (ht1 : "time" ∉ hs.drop 1) :
    (entryLookup "date" e = some d ∧
     entryLookup "time" e = some ts ∧
     (∀ i, 1 ≤ i → i < min hs.length parts.length →
       entryLookup (hs.getD i "") e = some (parts.getD i "")) ∧
     (∀ i, 1 ≤ i → parts.length ≤ i → i < hs.length →
       entryLookup (hs.getD i "") e = none)) ∧
    (entryLookup "date" (SarFacts.build_entry d ts hs parts) = some d ∧
     entryLookup "time" (SarFacts.build_entry d ts hs parts) = some ts ∧
     (∀ i, 1 ≤ i → i < min hs.length parts.length →
       entryLookup (hs.getD i "") (SarFacts.build_entry d ts hs parts) =
         some (parts.getD i "")) ∧
     (∀ i, 1 ≤ i → parts.length ≤ i → i < hs.length →
       entryLookup (hs.getD i "") (SarFacts.build_entry d ts hs parts) = none)) := by
  refine ⟨?_, facts_build_entry_fields d ts hs parts hnd hd1 ht1⟩
  refine ⟨build_entry_date d ts hs parts e he hd1,
    build_entry_time d ts hs parts e he ht1, ?_, ?_⟩
  · intro i h1 h2
    obtain ⟨j, rfl⟩ : ∃ j, i = j + 1 := ⟨i - 1, by omega⟩
    match hs, hnd, hd1, ht1, he, h2 with
    | [], _, _, _, _, h2 => exact absurd h2 (by simp)
    | x :: xs, hnd, hd1, ht1, he, h2 =>
      have hlen : j + 1 < parts.length := lt_of_lt_of_le h2 (min_le_right _ _)
      have hlh : j + 1 < (x :: xs).length := lt_of_lt_of_le h2 (min_le_left _ _)
      have hj : j < xs.length := by
        simp only [List.length_cons] at hlh
        omega
      unfold SarInfo.build_entry at he
      have hmain := (addFields_lookup ((x :: xs).drop 1) parts 1
        [("date", d), ("time", ts)] e he hnd j
        (by simpa using hj)).1 (by omega)
      rw [show (1 : Nat) + j = j + 1 by omega] at hmain
      rw [List.getD_cons_succ]
      exact hmain
  · intro i h1 hge hlt
    obtain ⟨j, rfl⟩ : ∃ j, i = j + 1 := ⟨i - 1, by omega⟩
    match hs, hnd, hd1, ht1, he, hlt with
    | [], _, _, _, _, hlt => exact absurd hlt (by simp)
    | x :: xs, hnd, hd1, ht1, he, hlt =>
      have hj : j < xs.length := by
        simp only [List.length_cons] at hlt
        omega
      unfold SarInfo.build_entry at he
      have hmain := (addFields_lookup ((x :: xs).drop 1) parts 1
        [("date", d), ("time", ts)] e he hnd j
        (by simpa using hj)).2 (by omega)
      have hmem : xs.getD j "" ∈ xs := by
        rw [List.getD_eq_getElem _ _ hj]
        exact List.getElem_mem hj
      have hne1 : ¬ ("date" = xs.getD j "") := by
        intro hcontra
        rw [← hcontra] at hmem
        exact hd1 hmem
      have hne2 : ¬ ("time" = xs.getD j "") := by
        intro hcontra
        rw [← hcontra] at hmem
        exact ht1 hmem
      rw [List.getD_cons_succ]
      calc entryLookup (xs.getD j "") e
          = entryLookup (xs.getD j "") [("date", d), ("time", ts)] := hmain
        _ = none := by
            simp only [entryLookup]
            rw [if_neg hne1, if_neg hne2]

/-- C7 witness: the amended statement applied to the concrete header
`T a b` and the short data row `09:00:00 1`, for both dialects' record
constructions — column `a` is mapped to token `1` and the out-of-range
column `b` is absent from the record. -/
theorem C7_record_fields_witness :
    entryLookup "a" [("date", "d0"), ("time", "09:00:00"), ("a", "1")] = some "1" ∧
    entryLookup "b" [("date", "d0"), ("time", "09:00:00"), ("a", "1")] = none ∧
    entryLookup "a" (SarFacts.build_entry "d0" "09:00:00" ["T", "a", "b"] ["09:00:00", "1"]) =
      some "1" ∧
    entryLookup "b" (SarFacts.build_entry "d0" "09:00:00" ["T", "a", "b"] ["09:00:00", "1"]) =
      none := by
  have h := C7_record_fields "d0" "09:00:00" ["T", "a", "b"] ["09:00:00", "1"]
    [("date", "d0"), ("time", "09:00:00"), ("a", "1")] rfl (by decide) (by decide) (by decide)
  exact ⟨h.1.2.2.1 1 (by decide) (by decide), h.1.2.2.2 2 (by decide) (by decide) (by decide),
    h.2.2.2.1 1 (by decide) (by decide), h.2.2.2.2 2 (by decide) (by decide) (by decide)⟩

/-- C8: for every category the built command is exactly
`[binary, "-f", logfile]`, then the fixed per-category flags (cpu `-u`,
memory `-r`, swap `-S`, network `-n DEV`, disk `-d -p` when partition else
`-d`, load `-q`), then `-s start` only when the start time is non-empty and
`-e end` only when the end time is non-empty. -/
theorem C8_command_shape (bin file ty ts te : String) (part : Bool) :
    run_sar_command_argv bin file ty ts te part =
      [bin, "-f", file] ++ claim_category_flags ty part ++
      (if ts ≠ "" then ["-s", ts] else []) ++ (if te ≠ "" then ["-e", te] else []) := by
  unfold run_sar_command_argv sar_flags claim_category_flags
  split_ifs <;> simp [List.append_assoc]
